import Mathlib

/-!
Verification of the signed-request trading client and its validation
pipeline (`bot/client.py`, `bot/validators.py`, `bot/orders.py`).

The Python code is shallowly embedded:

* Python `dict[str, str]` values become insertion-ordered association
  lists (`Dict` below); `d[k] = v` becomes `dictInsert`, which replaces
  in place when the key exists and appends otherwise, exactly like a
  CPython dict.
* `decimal.Decimal` becomes `PyDecimal` (sign, coefficient, exponent,
  plus infinities and NaNs); string construction follows the numeric
  string grammar of the `decimal` module (`strip`, underscore removal,
  case-insensitive match of `[sign] digits [. digits] [E exp] | Inf |
  [s]NaN diag`), and `str(Decimal)` follows the to-scientific-string
  algorithm of `Decimal.__str__`.  Whitespace is modelled as the ASCII
  whitespace characters.
* Exceptions become `Except`-valued results; the distinct Python
  exception classes that can escape the embedded fragments are distinct
  constructors (`ValidationError`, `decimal.InvalidOperation`,
  `BinanceAPIError`, `AttributeError`, `ValueError`).
* The body of an HTTP response is modelled as raw text together with
  the result of `response.json()` (`none` when decoding raises
  `ValueError`).
* HMAC-SHA256 (`hmac.new(..., hashlib.sha256).hexdigest()`) is
  implemented in full over byte lists, and `urllib.parse.urlencode` /
  `quote_plus` over UTF-8 bytes.
* For the aliasing behaviour of `_request` / `_sign` a tiny store of
  dictionaries is used: references are indices, `dict(params or {})`
  allocates a copy, and `_sign` mutates the dict behind its reference.
-/

/-! ## Dictionaries (insertion-ordered string maps) -/

abbrev Dict := List (String × String)

/-- Key membership `k in d` for a Python dict modelled as an insertion-ordered list. -/
def dictHasKey (d : Dict) (k : String) : Bool :=
  d.any (fun kv => kv.1 == k)

/-- Assignment `d[k] = v` on a CPython dict: replace in place when the key exists,
append otherwise. -/
def dictInsert (d : Dict) (k v : String) : Dict :=
  if dictHasKey d k then d.map (fun kv => if kv.1 == k then (k, v) else kv)
  else d ++ [(k, v)]

/-! ## Character helpers (ASCII model of `str` operations) -/

/-- ASCII whitespace, modelling the characters `str.strip()` removes. -/
def isPySpace (c : Char) : Bool :=
  c == ' ' || c == '\t' || c == '\n' || c == '\r' ||
  c == Char.ofNat 11 || c == Char.ofNat 12

/-- Python `s.strip()`: drop leading and trailing whitespace. -/
def pyStrip (cs : List Char) : List Char :=
  ((cs.dropWhile isPySpace).reverse.dropWhile isPySpace).reverse

/-- ASCII `str.lower()` on one character. -/
def pyLowerChar (c : Char) : Char :=
  if 65 ≤ c.toNat ∧ c.toNat ≤ 90 then Char.ofNat (c.toNat + 32) else c

/-- ASCII `str.upper()` on one character. -/
def pyUpperChar (c : Char) : Char :=
  if 97 ≤ c.toNat ∧ c.toNat ≤ 122 then Char.ofNat (c.toNat - 32) else c

/-- Numeric value of a decimal digit character. -/
def digitVal (c : Char) : Nat := c.toNat - 48

/-- Value of a digit string, most significant digit first
(`int("d1...dn")`); leading zeros are absorbed, as in
`str(int(intpart + fracpart))` in `_pydecimal`. -/
def digitsVal (ds : List Char) : Nat :=
  ds.foldl (fun a c => 10 * a + digitVal c) 0

/-- Longest digit-satisfying split: `spanP p cs = (takeWhile, rest)`. -/
def spanP (p : Char → Bool) : List Char → List Char × List Char
  | [] => ([], [])
  | c :: cs =>
    if p c then
      let r := spanP p cs
      (c :: r.1, r.2)
    else ([], c :: cs)

/-- Parse one optional leading sign; returns (isNegative, rest). -/
def parseSignL : List Char → Bool × List Char
  | '-' :: cs => (true, cs)
  | '+' :: cs => (false, cs)
  | cs => (false, cs)

/-! ## `decimal.Decimal` -/

/-- A Python `Decimal`: finite values are `(-1)^neg * coeff * 10^exp`
with the coefficient kept as parsed (leading zeros stripped, exactly as
`str(int(...))` does); special values are infinities and (signaling)
NaNs with a diagnostic payload. -/
inductive PyDecimal where
  | finite (neg : Bool) (coeff : Nat) (exp : Int)
  | inf (neg : Bool)
  | nan (signaling : Bool) (neg : Bool) (payload : Nat)
deriving DecidableEq, Repr

/-- Signed integer from a parsed sign and magnitude. -/
def intOfSign (neg : Bool) (n : Nat) : Int :=
  if neg then -(n : Int) else (n : Int)

/-- The pieces of the numeric alternative of the `decimal` string
grammar: integer digits, fraction digits, exponent sign and digits. -/
structure NumParts where
  ip : List Char
  fp : List Char
  eneg : Bool
  ed : List Char
deriving Repr

/-- Tokenize the numeric alternative of the `decimal` string grammar
(after the sign): `digits [. digits] [e [sign] digits]`, needing at
least one digit in the coefficient and at least one exponent digit when
`e` is present; an absent exponent part reads as exponent `0` (empty
digit string). -/
def splitNumeric (cs : List Char) : Option NumParts :=
  let s1 := spanP Char.isDigit cs
  let s2 : List Char × List Char :=
    match s1.2 with
    | '.' :: t => spanP Char.isDigit t
    | _ => ([], s1.2)
  if s1.1.isEmpty && s2.1.isEmpty then none
  else
    match s2.2 with
    | [] => some ⟨s1.1, s2.1, false, []⟩
    | 'e' :: t =>
      let es := parseSignL t
      let s3 := spanP Char.isDigit es.2
      if s3.1.isEmpty || !s3.2.isEmpty then none
      else some ⟨s1.1, s2.1, es.1, s3.1⟩
    | _ => none

/-- The numeric alternative, as constructed by `_pydecimal.__new__`:
coefficient `int(intpart + fracpart)` (leading zeros absorbed by the
digit-string value) and exponent `exp - len(fracpart)`. -/
def parseNumericCore (neg : Bool) (cs : List Char) : Option PyDecimal :=
  match splitNumeric cs with
  | none => none
  | some pt => some (.finite neg (digitsVal (pt.ip ++ pt.fp))
      (intOfSign pt.eneg (digitsVal pt.ed) - (pt.fp.length : Int)))

/-- The special alternatives of the `decimal` string grammar (after the
sign): `inf`, `infinity`, `nan digits*`, `snan digits*` (input is
already lowercased). -/
def parseSpecialCore (neg : Bool) (cs : List Char) : Option PyDecimal :=
  match cs with
  | ['i', 'n', 'f'] => some (.inf neg)
  | ['i', 'n', 'f', 'i', 'n', 'i', 't', 'y'] => some (.inf neg)
  | 's' :: 'n' :: 'a' :: 'n' :: ds =>
    if ds.all Char.isDigit then some (.nan true neg (digitsVal ds)) else none
  | 'n' :: 'a' :: 'n' :: ds =>
    if ds.all Char.isDigit then some (.nan false neg (digitsVal ds)) else none
  | _ => none

/-- Full numeric-string parse after cleaning: optional sign, then the
numeric alternative, else the special alternatives. -/
def parseDecCore (cs : List Char) : Option PyDecimal :=
  let sg := parseSignL cs
  match parseNumericCore sg.1 sg.2 with
  | some d => some d
  | none => parseSpecialCore sg.1 sg.2

/-- Cleaning `value.strip().replace("_", "")`, lowercased (the grammar is
matched case-insensitively). -/
def pyClean (s : String) : List Char :=
  ((pyStrip s.data).filter (fun c => c != '_')).map pyLowerChar

/-- Constructor `Decimal(s)` for a string argument: `none` models the constructor
raising `InvalidOperation`. -/
def parseDecimal (s : String) : Option PyDecimal :=
  parseDecCore (pyClean s)

/-- Comparison `d <= 0` on a `Decimal`: `none` models the ordering comparison
raising `InvalidOperation` on a NaN operand (the default decimal
context traps `InvalidOperation`). -/
def decLeZero : PyDecimal → Option Bool
  | .finite neg c _ => some (neg || c == 0)
  | .inf neg => some neg
  | .nan _ _ _ => none

/-- The value is mathematically strictly positive (`+Infinity` counts;
NaN does not). -/
def decGtZero : PyDecimal → Bool
  | .finite neg c _ => !neg && c != 0
  | .inf neg => !neg
  | .nan _ _ _ => false

/-- Exact rational value of a finite `Decimal`. -/
def decValueQ : PyDecimal → Option ℚ
  | .finite neg c e => some ((if neg then (-1 : ℚ) else 1) * (c : ℚ) * (10 : ℚ) ^ e)
  | .inf _ => none
  | .nan _ _ _ => none

/-! ## Spec-side decimal value (refinement reference)

Modelled from the spec: "For any positive decimal string `q`,
`validate_quantity(q)` returns an exact decimal equal to `q`'s
mathematical value with no rounding".  The reference below assigns to a
decimal numeral `[sign] digits [. digits] [e [sign] digits]` its
mathematical value as a rational number directly (integer part, plus
fraction digits over a power of ten, times a power of ten for the
exponent), with no intermediate representation.  It shares only the
surface normalization (`pyClean`) and the digit-string reading with the
implementation model. -/

/-- Mathematical value of the numeric decimal grammar after the sign:
`sign * (intdigits + fracdigits / 10^len(frac)) * 10^exp`, computed as
a rational number directly from the positional reading of the numeral
(no coefficient/exponent representation in between). -/
def specNumericVal (neg : Bool) (cs : List Char) : Option ℚ :=
  match splitNumeric cs with
  | none => none
  | some pt => some ((if neg then (-1 : ℚ) else 1) *
      ((digitsVal pt.ip : ℚ) + (digitsVal pt.fp : ℚ) / (10 : ℚ) ^ pt.fp.length) *
      (10 : ℚ) ^ intOfSign pt.eneg (digitsVal pt.ed))

/-- Mathematical value of a decimal numeral string (spec reference):
`none` when the string is not a finite decimal numeral. -/
def specDecimalValue (s : String) : Option ℚ :=
  let sg := parseSignL (pyClean s)
  specNumericVal sg.1 sg.2

/-! ## `str(Decimal)` (to-scientific-string, `Decimal.__str__`) -/

/-- Formatting `"%+d" % i`: decimal representation always carrying a sign. -/
def intSignedRepr (i : Int) : String :=
  if i < 0 then "-" ++ Nat.repr i.natAbs else "+" ++ Nat.repr i.natAbs

/-- Python `Decimal.__str__` (non-engineering), following `_pydecimal`:
compute `leftdigits = exp + len(digits)`, place the decimal point at
`leftdigits` when `exp <= 0 and leftdigits > -6`, else at 1 with an
`E%+d` exponent part. -/
def pyDecStr : PyDecimal → String
  | .finite neg c e =>
    let sgn := if neg then "-" else ""
    let ds := (Nat.repr c).data
    let leftdigits : Int := e + ds.length
    let dotplace : Int := if e ≤ 0 ∧ leftdigits > -6 then leftdigits else 1
    let ip : List Char :=
      if dotplace ≤ 0 then ['0']
      else if dotplace ≥ (ds.length : Int) then ds ++ List.replicate (dotplace - ds.length).toNat '0'
      else ds.take dotplace.toNat
    let fp : List Char :=
      if dotplace ≤ 0 then '.' :: (List.replicate (-dotplace).toNat '0' ++ ds)
      else if dotplace ≥ (ds.length : Int) then []
      else '.' :: ds.drop dotplace.toNat
    let ep : String := if leftdigits == dotplace then "" else "E" ++ intSignedRepr (leftdigits - dotplace)
    sgn ++ String.mk ip ++ String.mk fp ++ ep
  | .inf neg => (if neg then "-" else "") ++ "Infinity"
  | .nan sig neg payload =>
    (if neg then "-" else "") ++ (if sig then "sNaN" else "NaN") ++
      (if payload == 0 then "" else Nat.repr payload)

/-- Stringification `str(price)` where `price : Optional[Decimal]`. -/
def pyStrOptDec : Option PyDecimal → String
  | none => "None"
  | some d => pyDecStr d

/-! ## Validators (`bot/validators.py`) -/

/-- The exceptions a validator call can raise: `ValidationError` from
the validators themselves, and `decimal.InvalidOperation` escaping from
an ordering comparison against a NaN (the `try` blocks only guard the
`Decimal` constructor). -/
inductive VErr where
  | validationError
  | invalidOperation
deriving DecidableEq, Repr

/-- Canonical form `symbol.strip().upper()`. -/
def symbolCanon (s : String) : List Char :=
  (pyStrip s.data).map pyUpperChar

/-- The pattern `SYMBOL_PATTERN = ^[A-Z]\x7b2,20\x7d$`. -/
def symbolMatches (cs : List Char) : Bool :=
  2 ≤ cs.length && cs.length ≤ 20 &&
    cs.all (fun c => 65 ≤ c.toNat && c.toNat ≤ 90)

/-- Model of `validate_symbol`: strip, uppercase, check the pattern. -/
def validate_symbol (symbol : String) : Except VErr String :=
  let t := symbolCanon symbol
  if symbolMatches t then .ok (String.mk t) else .error .validationError

/-- Model of `validate_side`: strip, uppercase, membership in `{BUY, SELL}`. -/
def validate_side (side : String) : Except VErr String :=
  let t := String.mk ((pyStrip side.data).map pyUpperChar)
  if t == "BUY" || t == "SELL" then .ok t else .error .validationError

/-- Model of `validate_order_type`: strip, uppercase, membership in
`{MARKET, LIMIT}`. -/
def validate_order_type (order_type : String) : Except VErr String :=
  let t := String.mk ((pyStrip order_type.data).map pyUpperChar)
  if t == "MARKET" || t == "LIMIT" then .ok t else .error .validationError

/-- Model of `validate_quantity` (string argument; `str(quantity)` is the
identity there): `Decimal(...)` failures become `ValidationError`, then
`qty <= 0` rejects non-positive values, raising `InvalidOperation`
out of the function when the parsed value is a NaN. -/
def validate_quantity (quantity : String) : Except VErr PyDecimal :=
  match parseDecimal quantity with
  | none => .error .validationError
  | some d =>
    match decLeZero d with
    | none => .error .invalidOperation
    | some true => .error .validationError
    | some false => .ok d

/-- Model of `validate_price`: for a non-LIMIT order type return `None` without
looking at the price; for LIMIT require a present, parsable, positive
price (NaN again escapes as `InvalidOperation`). -/
def validate_price (price : Option String) (order_type : String) :
    Except VErr (Option PyDecimal) :=
  if order_type == "LIMIT" then
    match price with
    | none => .error .validationError
    | some ps =>
      match parseDecimal ps with
      | none => .error .validationError
      | some d =>
        match decLeZero d with
        | none => .error .invalidOperation
        | some true => .error .validationError
        | some false => .ok (some d)
  else .ok none

/-- Validated, immutable order parameters (`OrderParams`). -/
structure OrderParams where
  symbol : String
  side : String
  order_type : String
  quantity : PyDecimal
  price : Option PyDecimal := none
deriving DecidableEq, Repr

/-- Model of `validate_order`: run the field validators in order, fail-fast. -/
def validate_order (symbol side order_type quantity : String)
    (price : Option String := none) : Except VErr OrderParams :=
  match validate_symbol symbol with
  | .error e => .error e
  | .ok v_symbol =>
    match validate_side side with
    | .error e => .error e
    | .ok v_side =>
      match validate_order_type order_type with
      | .error e => .error e
      | .ok v_type =>
        match validate_quantity quantity with
        | .error e => .error e
        | .ok v_qty =>
          match validate_price price v_type with
          | .error e => .error e
          | .ok v_price =>
            .ok { symbol := v_symbol, side := v_side, order_type := v_type,
                  quantity := v_qty, price := v_price }

/-! ## Order submission (`bot/orders.py`, `place_order`) -/

/-- The wire payload built by `place_order`: the base dict in literal
insertion order, extended with `price` / `timeInForce` for LIMIT. -/
def buildPayload (p : OrderParams) : Dict :=
  let base : Dict :=
    [("symbol", p.symbol), ("side", p.side), ("type", p.order_type),
     ("quantity", pyDecStr p.quantity), ("newOrderRespType", "RESULT")]
  if p.order_type == "LIMIT" then
    base ++ [("price", pyStrOptDec p.price), ("timeInForce", "GTC")]
  else base

/-! ## Response handling (`bot/client.py`, `_request` / `ping`) -/

/-- Decoded JSON values (`response.json()` results). -/
inductive Json where
  | obj (fields : List (String × Json))
  | arr (elems : List Json)
  | str (s : String)
  | num (n : Int)
  | bool (b : Bool)
  | null

/-- An HTTP response: status code, raw body text, and the result of
`response.json()` (`none` when decoding raises `ValueError`). -/
structure Response where
  status : Nat
  text : String
  jsonBody : Option Json

/-- Exceptions escaping `_request`'s response handling:
`BinanceAPIError(status_code, code, msg)` (code and msg carry whatever
`body.get` returned), `AttributeError` from calling `.get` on a
non-dict JSON value, and `ValueError` from `response.json()` on a
success status. -/
inductive PyExn where
  | apiError (status_code : Nat) (code : Json) (msg : Json)
  | attributeError
  | valueError

/-- Lookup `fields.get(k, dflt)` on a decoded JSON object. -/
def jsonGetD (fields : List (String × Json)) (k : String) (dflt : Json) : Json :=
  match fields.find? (fun kv => kv.1 == k) with
  | some kv => kv.2
  | none => dflt

/-- The response-classification tail of `_request`: a status `>= 400`
raises `BinanceAPIError` built from the decoded body when it is an
object, falls back to `code=-1, msg=<raw text>` when decoding raises
`ValueError`, and hits `AttributeError` on `.get` when the body decodes
to a non-object; a success status returns the decoded body, with a
decode failure propagating as `ValueError`. -/
def handleResponse (r : Response) : Except PyExn Json :=
  if r.status ≥ 400 then
    match r.jsonBody with
    | none => .error (.apiError r.status (.num (-1)) (.str r.text))
    | some (Json.obj fields) =>
      .error (.apiError r.status (jsonGetD fields "code" (.num (-1)))
        (jsonGetD fields "msg" (.str r.text)))
    | some _ => .error .attributeError
  else
    match r.jsonBody with
    | none => .error .valueError
    | some j => .ok j

/-- Comparison `result == \x7b\x7d` for a decoded JSON value (only an empty object
compares equal to the empty dict). -/
def jsonIsEmptyDict : Json → Bool
  | .obj [] => true
  | _ => false

/-- Model of `ping()`: unsigned GET whose result is compared against `{}`. -/
def ping (r : Response) : Except PyExn Bool :=
  match handleResponse r with
  | .error e => .error e
  | .ok j => .ok (jsonIsEmptyDict j)

/-! ## SHA-256 and HMAC (`hashlib.sha256`, `hmac.new`) -/

/-- Truncate to a 32-bit word. -/
def w32 (n : Nat) : Nat := n % 4294967296

/-- Rotate a 32-bit word right by `r` (as arithmetic on `Nat`). -/
def rotr32 (r x : Nat) : Nat :=
  w32 (x / 2 ^ r + x % 2 ^ r * 2 ^ (32 - r))

/-- SHA-256 `Ch(x,y,z) = (x ∧ y) ⊕ (¬x ∧ z)`. -/
def shaCh (x y z : Nat) : Nat := (x &&& y) ^^^ ((x ^^^ 4294967295) &&& z)

/-- SHA-256 `Maj(x,y,z)`. -/
def shaMaj (x y z : Nat) : Nat := (x &&& y) ^^^ (x &&& z) ^^^ (y &&& z)

/-- SHA-256 `Σ0`. -/
def bigSigma0 (x : Nat) : Nat := rotr32 2 x ^^^ rotr32 13 x ^^^ rotr32 22 x

/-- SHA-256 `Σ1`. -/
def bigSigma1 (x : Nat) : Nat := rotr32 6 x ^^^ rotr32 11 x ^^^ rotr32 25 x

/-- SHA-256 `σ0`. -/
def smallSigma0 (x : Nat) : Nat := rotr32 7 x ^^^ rotr32 18 x ^^^ x / 2 ^ 3

/-- SHA-256 `σ1`. -/
def smallSigma1 (x : Nat) : Nat := rotr32 17 x ^^^ rotr32 19 x ^^^ x / 2 ^ 10

/-- The 64 SHA-256 round constants. -/
def shaK : List Nat :=
  [1116352408, 1899447441, 3049323471, 3921009573, 961987163,
   1508970993, 2453635748, 2870763221, 3624381080, 310598401,
   607225278, 1426881987, 1925078388, 2162078206, 2614888103,
   3248222580, 3835390401, 4022224774, 264347078, 604807628,
   770255983, 1249150122, 1555081692, 1996064986, 2554220882,
   2821834349, 2952996808, 3210313671, 3336571891, 3584528711,
   113926993, 338241895, 666307205, 773529912, 1294757372,
   1396182291, 1695183700, 1986661051, 2177026350, 2456956037,
   2730485921, 2820302411, 3259730800, 3345764771, 3516065817,
   3600352804, 4094571909, 275423344, 430227734, 506948616,
   659060556, 883997877, 958139571, 1322822218, 1537002063,
   1747873779, 1955562222, 2024104815, 2227730452, 2361852424,
   2428436474, 2756734187, 3204031479, 3329325298]

/-- The SHA-256 initial hash value, in decimal. -/
def shaH0 : List Nat :=
  [1779033703, 3144134277, 1013904242, 2773480762,
   1359893119, 2600822924, 528734635, 1541459225]

/-- The `k` big-endian bytes of `n`. -/
def bytesBE (k n : Nat) : List Nat :=
  (List.range k).map (fun i => n / 2 ^ (8 * (k - 1 - i)) % 256)

/-- SHA-256 padding: append `0x80`, zero bytes to 56 mod 64, then the
bit length as 8 big-endian bytes. -/
def shaPad (msg : List Nat) : List Nat :=
  msg ++ 128 :: List.replicate ((119 - msg.length % 64) % 64) 0 ++
    bytesBE 8 (msg.length * 8)

/-- Split a byte list into 64-byte blocks (fueled recursion). -/
def chunk64Go : Nat → List Nat → List (List Nat)
  | _, [] => []
  | 0, _ => []
  | fuel + 1, l => l.take 64 :: chunk64Go fuel (l.drop 64)

/-- Split a byte list into 64-byte blocks. -/
def chunk64 (l : List Nat) : List (List Nat) := chunk64Go l.length l

/-- The 16 big-endian words of one 64-byte block. -/
def wordsOfBlock (b : List Nat) : List Nat :=
  (List.range 16).map (fun i =>
    b.getD (4 * i) 0 * 16777216 + b.getD (4 * i + 1) 0 * 65536 +
      b.getD (4 * i + 2) 0 * 256 + b.getD (4 * i + 3) 0)

/-- Extend the 16 message-schedule words to 64. -/
def extendW (w0 : Array Nat) : Array Nat :=
  (List.range 48).foldl (fun w _ =>
    let i := w.size
    w.push (w32 (smallSigma1 (w.getD (i - 2) 0) + w.getD (i - 7) 0 +
      smallSigma0 (w.getD (i - 15) 0) + w.getD (i - 16) 0))) w0

/-- One SHA-256 compression round on the 8-word state. -/
def shaRound (st : List Nat) (k w : Nat) : List Nat :=
  match st with
  | [a, b, c, d, e, f, g, h] =>
    let t1 := w32 (h + bigSigma1 e + shaCh e f g + k + w)
    let t2 := w32 (bigSigma0 a + shaMaj a b c)
    [w32 (t1 + t2), a, b, c, w32 (d + t1), e, f, g]
  | st => st

/-- Process one 64-byte block. -/
def shaBlock (hs : List Nat) (b : List Nat) : List Nat :=
  let w := extendW (wordsOfBlock b).toArray
  let st := (List.range 64).foldl
    (fun st i => shaRound st (shaK.getD i 0) (w.getD i 0)) hs
  List.zipWith (fun x y => w32 (x + y)) hs st

/-- SHA-256 of a byte list, as 32 bytes. -/
def sha256 (msg : List Nat) : List Nat :=
  let hs := (chunk64 (shaPad msg)).foldl shaBlock shaH0
  (hs.map (bytesBE 4)).flatten

/-- UTF-8 bytes of a string (`s.encode("utf-8")`). -/
def strBytes (s : String) : List Nat :=
  s.toUTF8.toList.map (fun b => b.toNat)

/-- Lowercase hex digit. -/
def hexDigit (n : Nat) : Char :=
  if n < 10 then Char.ofNat (48 + n) else Char.ofNat (87 + n)

/-- Lowercase hex encoding of a byte list (`.hexdigest()`). -/
def hexLower (bs : List Nat) : String :=
  String.mk ((bs.map (fun b => [hexDigit (b / 16 % 16), hexDigit (b % 16)])).flatten)

/-- HMAC-SHA256 digest bytes (`hmac.new(key, msg, hashlib.sha256)`). -/
def hmacSha256 (key msg : List Nat) : List Nat :=
  let k0 := if 64 < key.length then sha256 key else key
  let k1 := k0 ++ List.replicate (64 - k0.length) 0
  sha256 ((k1.map (fun b => b ^^^ 92)) ++
    sha256 ((k1.map (fun b => b ^^^ 54)) ++ msg))

/-- Hex digest `hmac.new(secret.encode(), qs.encode(), hashlib.sha256).hexdigest()`. -/
def hmacSha256Hex (secret qs : String) : String :=
  hexLower (hmacSha256 (strBytes secret) (strBytes qs))

/-! ## `urllib.parse.urlencode` with `quote_plus` -/

/-- Characters `quote` never encodes: ASCII alphanumerics and `_.-~`. -/
def isUrlSafe (c : Char) : Bool :=
  (97 ≤ c.toNat && c.toNat ≤ 122) || (65 ≤ c.toNat && c.toNat ≤ 90) ||
  (48 ≤ c.toNat && c.toNat ≤ 57) || c == '_' || c == '.' || c == '-' || c == '~'

/-- Uppercase hex digit (percent-escapes use uppercase hex). -/
def hexDigitU (n : Nat) : Char :=
  if n < 10 then Char.ofNat (48 + n) else Char.ofNat (55 + n)

/-- Encoding of one character in `quote_plus`: safe characters pass through, space
becomes `+`, anything else is percent-encoded per UTF-8 byte. -/
def quotePlusChar (c : Char) : List Char :=
  if isUrlSafe c then [c]
  else if c == ' ' then ['+']
  else ((strBytes (String.mk [c])).map
    (fun b => ['%', hexDigitU (b / 16 % 16), hexDigitU (b % 16)])).flatten

/-- Python `urllib.parse.quote_plus`. -/
def quote_plus (s : String) : String :=
  String.mk ((s.data.map quotePlusChar).flatten)

/-- Python `urllib.parse.urlencode` over an insertion-ordered dict: percent-
encoded `k=v` pairs joined by `&`, in insertion order. -/
def urlencode (d : Dict) : String :=
  String.intercalate "&" (d.map (fun kv => quote_plus kv.1 ++ "=" ++ quote_plus kv.2))

/-! ## Signing (`BinanceClient._sign`) and the parameter store -/

/-- Model of `_sign` as a function of the dict contents, at a fixed timestamp
`t`: insert `timestamp`, urlencode the dict, HMAC it with the secret,
insert the hex digest as `signature`. -/
def signFn (secret : String) (t : Nat) (params : Dict) : Dict :=
  let p1 := dictInsert params "timestamp" (Nat.repr t)
  let query_string := urlencode p1
  let signature := hmacSha256Hex secret query_string
  dictInsert p1 "signature" signature

/-- A store of dictionaries: references are list indices, modelling
Python object identity for the mutable dicts passed around by
`_request` and `_sign`. -/
structure Store where
  dicts : List Dict
deriving Repr

/-- Dereference (missing references read as an empty dict). -/
def Store.get (st : Store) (r : Nat) : Dict := st.dicts.getD r []

/-- Overwrite the dict behind a reference. -/
def Store.set (st : Store) (r : Nat) (d : Dict) : Store := ⟨st.dicts.set r d⟩

/-- Allocate a fresh dict with the given contents. -/
def Store.alloc (st : Store) (d : Dict) : Store × Nat :=
  (⟨st.dicts ++ [d]⟩, st.dicts.length)

/-- Model of `_sign(params)` as a store action: it mutates the dict behind the
reference it is given. -/
def signSt (secret : String) (t : Nat) (st : Store) (r : Nat) : Store :=
  st.set r (signFn secret t (st.get r))

/-- The parameter-preparation head of `_request`:
`params = dict(params or {})` allocates a call-local copy of the
caller's dict (or of the empty dict), and only that copy is signed. -/
def requestPrep (secret : String) (t : Nat) (signed : Bool) (st : Store)
    (pRef : Option Nat) : Store × Nat :=
  let src : Dict := match pRef with | none => [] | some r => st.get r
  let al := st.alloc src
  (if signed then signSt secret t al.1 al.2 else al.1, al.2)

/-! ## Helper lemmas -/

theorem dictInsert_of_not_hasKey (d : Dict) (k v : String)
    (h : dictHasKey d k = false) : dictInsert d k v = d ++ [(k, v)] := by
  simp [dictInsert, h]

theorem dictHasKey_append_single (d : Dict) (kv : String × String) (k : String) :
    dictHasKey (d ++ [kv]) k = (dictHasKey d k || (kv.1 == k)) := by
  simp [dictHasKey, List.any_append]

theorem dictInsert_length_le (d : Dict) (k v : String) :
    d.length ≤ (dictInsert d k v).length := by
  unfold dictInsert
  split <;> simp

theorem dictInsert_length_of_not_hasKey (d : Dict) (k v : String)
    (h : dictHasKey d k = false) : (dictInsert d k v).length = d.length + 1 := by
  simp [dictInsert, h]

theorem signFn_length_gt (secret : String) (t : Nat) (d : Dict)
    (h : dictHasKey d "timestamp" = false) : d.length < (signFn secret t d).length := by
  unfold signFn
  calc d.length < (dictInsert d "timestamp" (Nat.repr t)).length := by
        rw [dictInsert_length_of_not_hasKey d _ _ h]; omega
    _ ≤ _ := dictInsert_length_le _ _ _

theorem Store.get_alloc_lt (st : Store) (d : Dict) (r : Nat)
    (h : r < st.dicts.length) : (st.alloc d).1.get r = st.get r := by
  simp [Store.alloc, Store.get, List.getD, List.getElem?_append_left h]

theorem Store.get_set_ne (st : Store) (d : Dict) (r r' : Nat) (h : r ≠ r') :
    (st.set r' d).get r = st.get r := by
  simp [Store.set, Store.get, List.getD, List.getElem?_set_ne (Ne.symm h)]

theorem Store.get_set_self (st : Store) (d : Dict) (r : Nat)
    (h : r < st.dicts.length) : (st.set r d).get r = d := by
  simp [Store.set, Store.get, List.getD, List.getElem?_set_eq_of_lt d h]

/-! ## Claim theorems -/

/-- C1: for a parameter dict `p` containing neither `timestamp` nor
`signature`, and a fixed timestamp `t`, `_sign` extends `p` with
`timestamp = t` and then with `signature` equal to the lowercase hex
encoding of HMAC-SHA256 keyed by the API secret over the query-string
serialization (percent-encoded pairs joined by `&`, insertion order
preserved, via `urlencode`) of `p` including `timestamp` and excluding
`signature`; `signature` is appended last. -/
theorem sign_appends_timestamp_then_signature
    (secret : String) (t : Nat) (p : Dict)
    (h1 : dictHasKey p "timestamp" = false)
    (h2 : dictHasKey p "signature" = false) :
    signFn secret t p =
      (p ++ [("timestamp", Nat.repr t)]) ++
        [("signature", hexLower (hmacSha256 (strBytes secret)
          (strBytes (urlencode (p ++ [("timestamp", Nat.repr t)])))))] := by
  have e1 : dictInsert p "timestamp" (Nat.repr t) = p ++ [("timestamp", Nat.repr t)] :=
    dictInsert_of_not_hasKey _ _ _ h1
  have h2' : dictHasKey (p ++ [("timestamp", Nat.repr t)]) "signature" = false := by
    rw [dictHasKey_append_single]
    simp [h2]
  simp only [signFn, e1, hmacSha256Hex]
  exact dictInsert_of_not_hasKey _ _ _ h2'

/-- C1 witness: the signing pipeline at a concrete parameter dict and
timestamp. -/
theorem sign_appends_timestamp_then_signature_witness :
    signFn "sec" 1700000000000 [("symbol", "BTCUSDT")] =
      ([("symbol", "BTCUSDT")] ++ [("timestamp", Nat.repr 1700000000000)]) ++
        [("signature", hexLower (hmacSha256 (strBytes "sec")
          (strBytes (urlencode ([("symbol", "BTCUSDT")] ++
            [("timestamp", Nat.repr 1700000000000)])))))] :=
  sign_appends_timestamp_then_signature "sec" 1700000000000
    [("symbol", "BTCUSDT")] rfl rfl

/-- C9: `_request` copies the caller's mapping before signing
(`params = dict(params or {})`), so the caller's dict is unchanged by
the call, even though `_sign` itself mutates the dict it is given. -/
theorem request_preserves_caller_params
    (secret : String) (t : Nat) (signed : Bool) (st : Store)
    (pRef : Option Nat) (r : Nat) (h : r < st.dicts.length) :
    (requestPrep secret t signed st pRef).1.get r = st.get r ∧
    (dictHasKey (st.get r) "timestamp" = false →
      (signSt secret t st r).get r ≠ st.get r) := by
  constructor
  · have halloc : ∀ d : Dict, (st.alloc d).1.get r = st.get r := fun d =>
      Store.get_alloc_lt st d r h
    have hne : r ≠ st.dicts.length := by omega
    simp only [requestPrep]
    split
    · rw [signSt]
      have hlen : ∀ d : Dict, (st.alloc d).2 = st.dicts.length := fun d => rfl
      rw [hlen, Store.get_set_ne _ _ _ _ hne, halloc]
    · exact halloc _
  · intro hts heq
    have h1 : (signSt secret t st r).get r = signFn secret t (st.get r) := by
      rw [signSt, Store.get_set_self _ _ _ h]
    have h2 : (st.get r).length < (signFn secret t (st.get r)).length :=
      signFn_length_gt secret t _ hts
    rw [h1] at heq
    rw [heq] at h2
    omega

/-- C9 witness: a concrete one-dict store; preparing a signed request
from it leaves the caller's dict intact, while `_sign` applied directly
to it mutates it. -/
theorem request_preserves_caller_params_witness :
    (requestPrep "sec" 1700000000000 true ⟨[[("symbol", "BTCUSDT")]]⟩ (some 0)).1.get 0 =
        Store.get ⟨[[("symbol", "BTCUSDT")]]⟩ 0 ∧
    (dictHasKey (Store.get ⟨[[("symbol", "BTCUSDT")]]⟩ 0) "timestamp" = false →
      (signSt "sec" 1700000000000 ⟨[[("symbol", "BTCUSDT")]]⟩ 0).get 0 ≠
        Store.get ⟨[[("symbol", "BTCUSDT")]]⟩ 0) :=
  request_preserves_caller_params "sec" 1700000000000 true
    ⟨[[("symbol", "BTCUSDT")]]⟩ (some 0) 0 (by simp)

theorem decGtZero_of_decLeZero_false (d : PyDecimal)
    (h : decLeZero d = some false) : decGtZero d = true := by
  cases d with
  | finite neg c e =>
    simp only [decLeZero, Option.some.injEq, Bool.or_eq_false_iff, beq_eq_false_iff_ne] at h
    simp [decGtZero, h.1, h.2]
  | inf neg =>
    simp only [decLeZero, Option.some.injEq] at h
    simp [decGtZero, h]
  | nan s n pl => simp [decLeZero] at h

theorem validate_order_type_cases (s t : String)
    (h : validate_order_type s = .ok t) : t = "MARKET" ∨ t = "LIMIT" := by
  simp only [validate_order_type] at h
  split at h
  · rename_i hc
    injection h with h'
    subst h'
    simpa using hc
  · exact Except.noConfusion h

theorem validate_order_ok_cases
    (symbol side order_type quantity : String) (price : Option String) (p : OrderParams)
    (h : validate_order symbol side order_type quantity price = .ok p) :
    (p.order_type = "MARKET" ∧ p.price = none) ∨
    (p.order_type = "LIMIT" ∧ ∃ d, p.price = some d ∧ decLeZero d = some false) := by
  unfold validate_order at h
  split at h
  · exact Except.noConfusion h
  · rename_i v_symbol hsym
    split at h
    · exact Except.noConfusion h
    · rename_i v_side hside
      split at h
      · exact Except.noConfusion h
      · rename_i v_type htype
        split at h
        · exact Except.noConfusion h
        · rename_i v_qty hqty
          split at h
          · exact Except.noConfusion h
          · rename_i v_price hprice
            injection h with h'
            subst h'
            dsimp only
            rcases validate_order_type_cases _ _ htype with hM | hL
            · subst hM
              simp only [validate_price, show ("MARKET" == "LIMIT") = false from rfl,
                Bool.false_eq_true, if_false] at hprice
              injection hprice with h''
              exact Or.inl ⟨rfl, h''.symm⟩
            · subst hL
              simp only [validate_price, beq_self_eq_true, if_true] at hprice
              refine Or.inr ⟨rfl, ?_⟩
              split at hprice
              · exact Except.noConfusion hprice
              · split at hprice
                · exact Except.noConfusion hprice
                · rename_i d hd
                  split at hprice
                  · exact Except.noConfusion hprice
                  · exact Except.noConfusion hprice
                  · rename_i hle
                    injection hprice with h''
                    exact ⟨d, h''.symm, hle⟩

/-- A concrete validated MARKET order (the result of
`validate_order("btcusdt", "SELL", "market", "2")`). -/
def marketSample : OrderParams :=
  { symbol := "BTCUSDT", side := "SELL", order_type := "MARKET",
    quantity := PyDecimal.finite false 2 0, price := none }

/-- A concrete validated LIMIT order (the result of
`validate_order("btcusdt", "BUY", "limit", "0.01", "50000")`). -/
def limitSample : OrderParams :=
  { symbol := "BTCUSDT", side := "BUY", order_type := "LIMIT",
    quantity := PyDecimal.finite false 1 (-2),
    price := some (PyDecimal.finite false 50000 0) }

/-- C7: any `OrderParams` produced by `validate_order` satisfies the
invariant: the order type is MARKET or LIMIT, `price` is absent for
MARKET, and for LIMIT `price` is present and strictly positive. -/
theorem validate_order_price_invariant
    (symbol side order_type quantity : String) (price : Option String) (p : OrderParams)
    (h : validate_order symbol side order_type quantity price = .ok p) :
    (p.order_type = "MARKET" ∨ p.order_type = "LIMIT") ∧
    (p.order_type = "MARKET" → p.price = none) ∧
    (p.order_type = "LIMIT" → ∃ d, p.price = some d ∧ decGtZero d = true) := by
  rcases validate_order_ok_cases symbol side order_type quantity price p h with
    ⟨hM, hp⟩ | ⟨hL, d, hp, hle⟩
  · exact ⟨Or.inl hM, fun _ => hp, fun hL => by rw [hM] at hL; exact absurd hL (by decide)⟩
  · refine ⟨Or.inr hL, fun hM => by rw [hL] at hM; exact absurd hM (by decide), ?_⟩
    exact fun _ => ⟨d, hp, decGtZero_of_decLeZero_false d hle⟩

/-- C7 witness: the invariant at a concrete validated MARKET order. -/
theorem validate_order_price_invariant_witness :
    (marketSample.order_type = "MARKET" ∨ marketSample.order_type = "LIMIT") ∧
    (marketSample.order_type = "MARKET" → marketSample.price = none) ∧
    (marketSample.order_type = "LIMIT" →
      ∃ d, marketSample.price = some d ∧ decGtZero d = true) :=
  validate_order_price_invariant "btcusdt" "SELL" "market" "2" none
    marketSample rfl

/-- C3: for every validated `OrderParams`, the wire payload built by
`place_order` contains exactly `symbol`, `side`, `type`, `quantity`
(stringified exact decimal) and `newOrderRespType = RESULT`; iff the
order type is LIMIT it additionally contains `price` (stringified) and
`timeInForce = GTC`; for non-LIMIT (MARKET) those two keys are absent. -/
theorem place_order_payload_shape
    (symbol side order_type quantity : String) (price : Option String) (p : OrderParams)
    (h : validate_order symbol side order_type quantity price = .ok p) :
    (p.order_type ≠ "LIMIT" →
      buildPayload p =
        [("symbol", p.symbol), ("side", p.side), ("type", p.order_type),
         ("quantity", pyDecStr p.quantity), ("newOrderRespType", "RESULT")] ∧
      dictHasKey (buildPayload p) "price" = false ∧
      dictHasKey (buildPayload p) "timeInForce" = false) ∧
    (p.order_type = "LIMIT" →
      ∃ d, p.price = some d ∧
        buildPayload p =
          [("symbol", p.symbol), ("side", p.side), ("type", "LIMIT"),
           ("quantity", pyDecStr p.quantity), ("newOrderRespType", "RESULT"),
           ("price", pyDecStr d), ("timeInForce", "GTC")]) := by
  constructor
  · intro hne
    have hcond : (p.order_type == "LIMIT") = false := beq_eq_false_iff_ne.mpr hne
    have hb : buildPayload p =
        [("symbol", p.symbol), ("side", p.side), ("type", p.order_type),
         ("quantity", pyDecStr p.quantity), ("newOrderRespType", "RESULT")] := by
      simp [buildPayload, hcond]
    refine ⟨hb, ?_, ?_⟩ <;> rw [hb] <;> rfl
  · intro hL
    rcases validate_order_ok_cases symbol side order_type quantity price p h with
      ⟨hM, _⟩ | ⟨_, d, hp, _⟩
    · rw [hM] at hL; exact absurd hL (by decide)
    · refine ⟨d, hp, ?_⟩
      simp [buildPayload, hL, hp, pyStrOptDec]

/-- C3 witness: the payload of the spec's concrete LIMIT order
`BTCUSDT BUY LIMIT 0.01 @ 50000`. -/
theorem place_order_payload_shape_witness :
    ∃ d, limitSample.price = some d ∧
      buildPayload limitSample =
        [("symbol", limitSample.symbol), ("side", limitSample.side), ("type", "LIMIT"),
         ("quantity", pyDecStr limitSample.quantity), ("newOrderRespType", "RESULT"),
         ("price", pyDecStr d), ("timeInForce", "GTC")] :=
  (place_order_payload_shape "btcusdt" "BUY" "limit" "0.01" (some "50000")
    limitSample rfl).2 rfl

/-- C8: an input whose stripped, uppercased form matches
`^[A-Z]{2,20}$` is returned in that canonical form by
`validate_symbol`; any other input fails with `ValidationError`. -/
theorem validate_symbol_spec (s : String) :
    (symbolMatches (symbolCanon s) = true →
      validate_symbol s = .ok (String.mk (symbolCanon s))) ∧
    (symbolMatches (symbolCanon s) = false →
      validate_symbol s = .error .validationError) := by
  constructor <;> intro h <;> simp [validate_symbol, h]

/-- C8 witness: a padded lowercase symbol is canonicalized and
accepted; a digit-bearing symbol is rejected. -/
theorem validate_symbol_spec_witness :
    validate_symbol "  btcusdt " = .ok (String.mk (symbolCanon "  btcusdt ")) ∧
    validate_symbol "BTC1" = .error .validationError :=
  ⟨(validate_symbol_spec "  btcusdt ").1 (by decide),
   (validate_symbol_spec "BTC1").2 (by decide)⟩

/-- C10: `validate_quantity "Infinity"` succeeds and returns positive
infinity — a non-finite decimal (no rational value, yet strictly
positive) passes quantity validation. -/
theorem validate_quantity_infinity_nonfinite :
    validate_quantity "Infinity" = .ok (PyDecimal.inf false) ∧
    decValueQ (PyDecimal.inf false) = none ∧
    decGtZero (PyDecimal.inf false) = true :=
  ⟨rfl, rfl, rfl⟩

/-- C6: on a 200 response whose body decodes, `ping()` returns `true`
exactly when the decoded body is the empty object, `false` for every
other decoded value. -/
theorem ping_empty_object_iff (r : Response) (j : Json)
    (h200 : r.status = 200) (hbody : r.jsonBody = some j) :
    ping r = .ok (jsonIsEmptyDict j) ∧
    (jsonIsEmptyDict j = true ↔ j = Json.obj []) := by
  have hr : handleResponse r = .ok j := by
    simp [handleResponse, h200, hbody]
  constructor
  · simp [ping, hr]
  · cases j with
    | obj fields => cases fields <;> simp [jsonIsEmptyDict]
    | arr l => simp [jsonIsEmptyDict]
    | str s => simp [jsonIsEmptyDict]
    | num n => simp [jsonIsEmptyDict]
    | bool b => simp [jsonIsEmptyDict]
    | null => simp [jsonIsEmptyDict]

/-- C6 witness: a 200 response with body `{}` pings true; a 200
response with a non-empty object body pings false. -/
theorem ping_empty_object_iff_witness :
    (ping ⟨200, "\x7b\x7d", some (Json.obj [])⟩ = .ok (jsonIsEmptyDict (Json.obj [])) ∧
      (jsonIsEmptyDict (Json.obj []) = true ↔ Json.obj [] = Json.obj [])) ∧
    (ping ⟨200, "\x7b\x22a\x22: 1\x7d", some (Json.obj [("a", Json.num 1)])⟩ =
        .ok (jsonIsEmptyDict (Json.obj [("a", Json.num 1)])) ∧
      (jsonIsEmptyDict (Json.obj [("a", Json.num 1)]) = true ↔
        Json.obj [("a", Json.num 1)] = Json.obj [])) :=
  ⟨ping_empty_object_iff ⟨200, "\x7b\x7d", some (Json.obj [])⟩ (Json.obj []) rfl rfl,
   ping_empty_object_iff ⟨200, "\x7b\x22a\x22: 1\x7d", some (Json.obj [("a", Json.num 1)])⟩
     (Json.obj [("a", Json.num 1)]) rfl rfl⟩

/-- C2 counterexample: a status-400 response whose body decodes to a
JSON array (a structured but non-object value) makes `_request` raise
`AttributeError` (from `body.get` on a list), not `BinanceAPIError`,
so the claim "the call raises an ApiError" fails for this response. -/
theorem request_nonobject_body_counterexample :
    handleResponse ⟨400, "[1]", some (Json.arr [Json.num 1])⟩ =
      .error .attributeError ∧
    (match handleResponse ⟨400, "[1]", some (Json.arr [Json.num 1])⟩ with
      | .error (.apiError _ _ _) => False
      | _ => True) :=
  ⟨rfl, trivial⟩

/-- C2 amended: for a response with status `>= 400`, `_request` raises
`BinanceAPIError` carrying the original status and the body's `code` /
`msg` fields when the body decodes to an object (with `-1` / raw text
as defaults), and carrying code `-1` and the raw body text when the
body fails to decode; when the body decodes to a structured non-object
value the call instead raises `AttributeError`.  No status `>= 400`
ever returns success. -/
theorem request_error_translation_amended (r : Response) (h : 400 ≤ r.status) :
    (r.jsonBody = none →
      handleResponse r = .error (.apiError r.status (.num (-1)) (.str r.text))) ∧
    (∀ fields, r.jsonBody = some (Json.obj fields) →
      handleResponse r = .error (.apiError r.status
        (jsonGetD fields "code" (.num (-1))) (jsonGetD fields "msg" (.str r.text)))) ∧
    (∀ j, r.jsonBody = some j → (∀ fields, j ≠ Json.obj fields) →
      handleResponse r = .error .attributeError) ∧
    (∀ j, handleResponse r ≠ .ok j) := by
  have hge : r.status ≥ 400 := h
  refine ⟨?_, ?_, ?_, ?_⟩
  · intro hb
    simp [handleResponse, hge, hb]
  · intro fields hb
    simp [handleResponse, hge, hb]
  · intro j hb hno
    cases j with
    | obj fields => exact absurd rfl (hno fields)
    | arr l => simp [handleResponse, hge, hb]
    | str s => simp [handleResponse, hge, hb]
    | num n => simp [handleResponse, hge, hb]
    | bool b => simp [handleResponse, hge, hb]
    | null => simp [handleResponse, hge, hb]
  · intro j hj
    rw [handleResponse, if_pos hge] at hj
    cases hb : r.jsonBody with
    | none => rw [hb] at hj; exact Except.noConfusion hj
    | some jv =>
      rw [hb] at hj
      cases jv <;> simp at hj

/-- C2 witness: the spec's concrete example — status 418 with body
`{"code": -2010, "msg": "insufficient balance"}` yields
`BinanceAPIError` with status 418, code -2010 and that message. -/
theorem request_error_translation_witness :
    handleResponse
        ⟨418, "\x7b\x22code\x22: -2010, \x22msg\x22: \x22insufficient balance\x22\x7d",
         some (Json.obj [("code", Json.num (-2010)),
                         ("msg", Json.str "insufficient balance")])⟩ =
      .error (.apiError 418 (Json.num (-2010)) (Json.str "insufficient balance")) :=
  (request_error_translation_amended
    ⟨418, "\x7b\x22code\x22: -2010, \x22msg\x22: \x22insufficient balance\x22\x7d",
     some (Json.obj [("code", Json.num (-2010)),
                     ("msg", Json.str "insufficient balance")])⟩
    (by decide)).2.1
    [("code", Json.num (-2010)), ("msg", Json.str "insufficient balance")] rfl

/-- C5 counterexample: the price string `"NaN"` is parsable (it yields
a quiet NaN) and not strictly positive, so per the claim
`validate_price("NaN", "LIMIT")` should fail with `ValidationError`;
instead the comparison `p <= 0` raises `decimal.InvalidOperation`,
which is not caught. -/
theorem validate_price_nan_counterexample :
    parseDecimal "NaN" = some (PyDecimal.nan false false 0) ∧
    validate_price (some "NaN") "LIMIT" = .error .invalidOperation ∧
    VErr.invalidOperation ≠ VErr.validationError :=
  ⟨rfl, rfl, by decide⟩

/-- C5 amended: for any non-LIMIT order type `validate_price` returns
`None` without inspecting the price; for LIMIT an absent price and an
unparsable price fail with `ValidationError`; a parsable strictly
positive price is returned exactly; a parsable non-positive price fails
with `ValidationError`; a price parsing to a NaN (parsable but
unordered) raises `decimal.InvalidOperation` instead. -/
theorem validate_price_amended (price : Option String) (order_type : String) :
    (order_type ≠ "LIMIT" → validate_price price order_type = .ok none) ∧
    (order_type = "LIMIT" → price = none →
      validate_price price order_type = .error .validationError) ∧
    (∀ ps, price = some ps → parseDecimal ps = none →
      order_type = "LIMIT" →
      validate_price price order_type = .error .validationError) ∧
    (∀ ps d, price = some ps → parseDecimal ps = some d →
      order_type = "LIMIT" →
      ((decLeZero d = some false →
          validate_price price order_type = .ok (some d) ∧ decGtZero d = true) ∧
       (decLeZero d = some true →
          validate_price price order_type = .error .validationError) ∧
       (decLeZero d = none →
          validate_price price order_type = .error .invalidOperation))) := by
  refine ⟨?_, ?_, ?_, ?_⟩
  · intro hne
    simp [validate_price, beq_eq_false_iff_ne.mpr hne]
  · intro hL hp
    subst hL
    simp [validate_price, hp]
  · intro ps hp hparse hL
    subst hL
    simp [validate_price, hp, hparse]
  · intro ps d hp hparse hL
    subst hL
    refine ⟨fun hle => ⟨?_, decGtZero_of_decLeZero_false d hle⟩,
      fun hle => ?_, fun hle => ?_⟩ <;>
      simp [validate_price, hp, hparse, hle]

/-- C5 witness: concrete instances — a MARKET order ignores the price,
a missing LIMIT price fails, and a LIMIT price of `50000` is returned
exactly. -/
theorem validate_price_amended_witness :
    validate_price (some "ignored") "MARKET" = .ok none ∧
    validate_price none "LIMIT" = .error .validationError ∧
    (validate_price (some "50000") "LIMIT" =
        .ok (some (PyDecimal.finite false 50000 0)) ∧
      decGtZero (PyDecimal.finite false 50000 0) = true) :=
  ⟨(validate_price_amended (some "ignored") "MARKET").1 (by decide),
   (validate_price_amended none "LIMIT").2.1 rfl rfl,
   ((validate_price_amended (some "50000") "LIMIT").2.2.2 "50000"
     (PyDecimal.finite false 50000 0) rfl rfl rfl).1 rfl⟩

theorem digitsVal_foldl_acc (b : List Char) (n : Nat) :
    b.foldl (fun a c => 10 * a + digitVal c) n =
      n * 10 ^ b.length + b.foldl (fun a c => 10 * a + digitVal c) 0 := by
  induction b generalizing n with
  | nil => simp
  | cons c t ih =>
    simp only [List.foldl_cons, List.length_cons]
    rw [ih (10 * n + digitVal c), ih (10 * 0 + digitVal c)]
    ring

theorem digitsVal_append (a b : List Char) :
    digitsVal (a ++ b) = digitsVal a * 10 ^ b.length + digitsVal b := by
  unfold digitsVal
  rw [List.foldl_append]
  exact digitsVal_foldl_acc b _

/-- The coefficient/exponent representation produced by the parser
denotes exactly the positional value of the numeral pieces. -/
theorem parts_value_eq (neg : Bool) (pt : NumParts) :
    (if neg then (-1 : ℚ) else 1) * (digitsVal (pt.ip ++ pt.fp) : ℚ) *
        (10 : ℚ) ^ (intOfSign pt.eneg (digitsVal pt.ed) - (pt.fp.length : Int)) =
    (if neg then (-1 : ℚ) else 1) *
      ((digitsVal pt.ip : ℚ) + (digitsVal pt.fp : ℚ) / (10 : ℚ) ^ pt.fp.length) *
      (10 : ℚ) ^ intOfSign pt.eneg (digitsVal pt.ed) := by
  have h10 : (10 : ℚ) ≠ 0 := by norm_num
  have hpow : ((10 : ℚ) ^ pt.fp.length) ≠ 0 := pow_ne_zero _ h10
  rw [digitsVal_append, zpow_sub₀ h10, zpow_natCast]
  push_cast
  field_simp

theorem finite_le_zero_iff (neg : Bool) (c : Nat) (e : Int) :
    ((if neg then (-1 : ℚ) else 1) * (c : ℚ) * (10 : ℚ) ^ e ≤ 0) ↔
      (neg || c == 0) = true := by
  have hp : (0 : ℚ) < (10 : ℚ) ^ e := zpow_pos (by norm_num) e
  cases neg with
  | false =>
    simp only [Bool.false_eq_true, if_false, one_mul, Bool.false_or, beq_iff_eq]
    constructor
    · intro h
      by_contra hc
      have hcpos : (0 : ℚ) < (c : ℚ) := by
        exact_mod_cast Nat.pos_of_ne_zero hc
      nlinarith
    · intro h
      subst h
      simp
  | true =>
    simp only [if_true, Bool.true_or, iff_true]
    have hcn : (0 : ℚ) ≤ (c : ℚ) := Nat.cast_nonneg c
    nlinarith

/-- A string with a spec-side mathematical value parses (through
cleaning, sign, tokenizing, and coefficient/exponent construction) to
a finite `Decimal` whose exact rational value is that same value. -/
theorem spec_some_parse (s : String) (x : ℚ)
    (h : specDecimalValue s = some x) :
    ∃ neg c e, parseDecimal s = some (.finite neg c e) ∧
      (if neg then (-1 : ℚ) else 1) * (c : ℚ) * (10 : ℚ) ^ e = x := by
  simp only [specDecimalValue, specNumericVal] at h
  cases hpt : splitNumeric (parseSignL (pyClean s)).2 with
  | none => rw [hpt] at h; exact Option.noConfusion h
  | some pt =>
    rw [hpt] at h
    injection h with h
    refine ⟨(parseSignL (pyClean s)).1, digitsVal (pt.ip ++ pt.fp),
      intOfSign pt.eneg (digitsVal pt.ed) - (pt.fp.length : Int), ?_, ?_⟩
    · simp only [parseDecimal, parseDecCore, parseNumericCore]
      rw [hpt]
    · rw [← h]
      exact parts_value_eq _ pt

/-- C4: for every string with a positive mathematical decimal value,
`validate_quantity` returns a `Decimal` whose exact rational value is
that value (no rounding); for every string whose mathematical value is
not strictly positive it fails with `ValidationError`; and for every
string the `Decimal` constructor cannot parse it fails with
`ValidationError`. -/
theorem validate_quantity_spec (q : String) :
    (∀ x : ℚ, specDecimalValue q = some x → 0 < x →
      ∃ d, validate_quantity q = .ok d ∧ decValueQ d = some x) ∧
    (∀ x : ℚ, specDecimalValue q = some x → x ≤ 0 →
      validate_quantity q = .error .validationError) ∧
    (parseDecimal q = none → validate_quantity q = .error .validationError) := by
  refine ⟨?_, ?_, ?_⟩
  · intro x hspec hpos
    obtain ⟨neg, c, e, hparse, hval⟩ := spec_some_parse q x hspec
    have hb : (neg || c == 0) = false := by
      rw [← Bool.not_eq_true]
      intro hle
      exact absurd ((finite_le_zero_iff neg c e).mpr hle) (by rw [hval]; exact not_le.mpr hpos)
    refine ⟨.finite neg c e, ?_, ?_⟩
    · simp [validate_quantity, hparse, decLeZero, hb]
    · exact congrArg some hval
  · intro x hspec hle
    obtain ⟨neg, c, e, hparse, hval⟩ := spec_some_parse q x hspec
    have hb : (neg || c == 0) = true := (finite_le_zero_iff neg c e).mp (by rw [hval]; exact hle)
    simp [validate_quantity, hparse, decLeZero, hb]
  · intro hnone
    simp [validate_quantity, hnone]

/-- C4 witness: the quantity string `"0.01"` has value 1/100 and is
returned exactly; the quantity string `"-3"` has value -3 and fails. -/
theorem validate_quantity_spec_witness :
    (∃ d, validate_quantity "0.01" = .ok d ∧ decValueQ d = some (1 / 100)) ∧
    validate_quantity "-3" = .error .validationError :=
  ⟨(validate_quantity_spec "0.01").1 (1 / 100)
    (by
      rw [show specDecimalValue "0.01" =
          some ((1 : ℚ) * (((0 : Nat) : ℚ) + ((1 : Nat) : ℚ) / (10 : ℚ) ^ (2 : Nat)) *
            (10 : ℚ) ^ ((0 : Nat) : Int)) from rfl]
      norm_num)
    (by norm_num),
   (validate_quantity_spec "-3").2.1 (-3)
    (by
      rw [show specDecimalValue "-3" =
          some ((-1 : ℚ) * (((3 : Nat) : ℚ) + ((0 : Nat) : ℚ) / (10 : ℚ) ^ (0 : Nat)) *
            (10 : ℚ) ^ ((0 : Nat) : Int)) from rfl]
      norm_num)
    (by norm_num)⟩
